import Mathlib

/-!
Verification of the deduplicating RSS polling engine (`src/news_rss.py`) and
the webhook event-dispatch server (`src/polymarket_client/webhook_listener.py`)
of the polymarket-trader-agent repository.

The Python code is shallowly embedded: feed entries, parsed feeds and JSON
values become inductive data; the mutating poll loop becomes explicit state
passing over the `seen_keys` set (modelled as a list with membership);
Python exceptions become `Except`; Python truthiness is made explicit.
`list.sort(key=..., reverse=True)` (a stable sort) is embedded as a stable
insertion sort over the same key, and Python's code-point-lexicographic
string comparison is embedded as `strLe`.
-/

/-- Python string comparison, lexicographic on code points, on char lists. -/
def charsLe : List Char → List Char → Bool
  | [], _ => true
  | _ :: _, [] => false
  | a :: as, b :: bs =>
      if a.toNat < b.toNat then true
      else if b.toNat < a.toNat then false
      else charsLe as bs

/-- Python `a <= b` on strings (code-point lexicographic). -/
def strLe (a b : String) : Bool := charsLe a.data b.data

/-- Python truthiness of an optional string attribute:
`None` and `""` are falsy, every other string is truthy. -/
def truthyStr : Option String → Bool
  | none => false
  | some s => s != ""

/-- Python `str.strip()`: drop leading and trailing whitespace. -/
def pyStrip (s : String) : String :=
  String.mk (((s.data.dropWhile Char.isWhitespace).reverse.dropWhile
    Char.isWhitespace).reverse)

/-- Python `x or default` for an optional string: falsy (`None` / `""`)
collapses to the default. -/
def orDefault (o : Option String) (d : String) : String :=
  match o with
  | none => d
  | some s => if s = "" then d else s

/-- A `time.struct_time`'s first six fields, as produced by feedparser's
`published_parsed`. -/
structure TimeStruct where
  year : Int
  month : Int
  day : Int
  hour : Int
  minute : Int
  second : Int
deriving DecidableEq

/-- Gregorian leap-year rule used by `datetime`. -/
def isLeap (y : Int) : Bool := y % 4 == 0 && (y % 100 != 0 || y % 400 == 0)

/-- Days in a month, as validated by `datetime.__init__`. -/
def daysInMonth (y m : Int) : Int :=
  if m = 2 then (if isLeap y then 29 else 28)
  else if m = 4 ∨ m = 6 ∨ m = 9 ∨ m = 11 then 30
  else 31

/-- Whether `datetime(year, month, day, hour, minute, second)` succeeds
(otherwise it raises and `_safe_published` yields `iso = None`). -/
def validDatetime (t : TimeStruct) : Bool :=
  (1 ≤ t.year && t.year ≤ 9999) &&
  (1 ≤ t.month && t.month ≤ 12) &&
  (1 ≤ t.day && t.day ≤ daysInMonth t.year t.month) &&
  (0 ≤ t.hour && t.hour ≤ 23) &&
  (0 ≤ t.minute && t.minute ≤ 59) &&
  (0 ≤ t.second && t.second ≤ 59)

/-- Zero-pad a (valid, hence nonnegative) field to `w` digits. -/
def padNum (w : Nat) (n : Int) : String :=
  let s := toString n
  if s.length < w then String.mk (List.replicate (w - s.length) '0') ++ s else s

/-- `datetime(...).isoformat()` for a whole-second datetime. -/
def isoformat (t : TimeStruct) : String :=
  padNum 4 t.year ++ "-" ++ padNum 2 t.month ++ "-" ++ padNum 2 t.day ++ "T" ++
  padNum 2 t.hour ++ ":" ++ padNum 2 t.minute ++ ":" ++ padNum 2 t.second

/-- One category tag on a feed entry: feedparser tag objects have an optional
`term`; `str(tag)` is the fallback label. -/
structure Tag where
  term : Option String
  text : String
deriving DecidableEq

/-- A parsed feed entry as consumed by the poller: every attribute access in
the Python code goes through `getattr(entry, ..., None)`, so each field is
optional. -/
structure Entry where
  id : Option String
  link : Option String
  title : Option String
  summary : Option String
  author : Option String
  published : Option String
  published_parsed : Option TimeStruct
  tags : List Tag
deriving DecidableEq

/-- `_safe_published`: keep the upstream date string (or `"No date"`), and
attempt an ISO-8601 rendering of `published_parsed` (`None` on failure).
Returns `(published, published_iso)`. -/
def safe_published (e : Entry) : String × Option String :=
  let iso := match e.published_parsed with
    | none => none
    | some t => if validDatetime t then some (isoformat t) else none
  (orDefault e.published "No date", iso)

/-- `make_article_key`: stable fingerprint for an article.
Priority: `entry.id` &gt; `link` &gt; `title|published` (last resort). -/
def make_article_key (e : Entry) : String :=
  if truthyStr e.id then "id::" ++ e.id.getD ""
  else if truthyStr e.link then "link::" ++ e.link.getD ""
  else "tp::" ++ pyStrip (e.title.getD "") ++ "|" ++ pyStrip (e.published.getD "")

/-- The normalized article record built by `fetch_feed_data`. -/
structure Article where
  key : String
  source : String
  title : String
  link : String
  summary : String
  author : String
  categories : List String
  published : String
  published_iso : Option String
deriving DecidableEq

/-- Category label of one tag: `getattr(tag, "term", None) or str(tag)`. -/
def tagLabel (t : Tag) : String := if truthyStr t.term then t.term.getD "" else t.text

/-- The article dict built for one entry inside `fetch_feed_data`'s loop. -/
def mkArticle (source : String) (e : Entry) : Article :=
  let pub := safe_published e
  { key := make_article_key e
    source := source
    title := orDefault e.title "No title"
    link := orDefault e.link "No link"
    summary := orDefault e.summary "No summary"
    author := orDefault e.author "Unknown author"
    categories := e.tags.map tagLabel
    published := pub.1
    published_iso := pub.2 }

/-- A parsed feed as returned by `feedparser.parse` (network and parse
failures are caught by `fetch_feed_data`'s outer handler and yield `[]`;
the success path is modelled). -/
structure Feed where
  status : Option Int
  bozo : Bool
  entries : List Entry
deriving DecidableEq

/-- The sort key of `articles.sort(key=lambda a: a.get("published_iso") or "",
reverse=True)`. -/
def sortKey (a : Article) : String := a.published_iso.getD ""

/-- Insert into a descending-by-`sortKey` list, before the first element with
a key less than or equal to the new one (the stable position, since the new
element originally came first). -/
def insertDesc (a : Article) : List Article → List Article
  | [] => [a]
  | b :: rest =>
      if strLe (sortKey b) (sortKey a) then a :: b :: rest
      else b :: insertDesc a rest

/-- Stable descending sort by `sortKey`: the embedding of
`articles.sort(key=..., reverse=True)` (Python's sort is stable). -/
def sortDesc : List Article → List Article
  | [] => []
  | a :: rest => insertDesc a (sortDesc rest)

/-- `fetch_feed_data` on an already-parsed feed: 304 short-circuits to `[]`;
the bozo flag only logs; entries are capped at `max_items` in original feed
order, normalized, then sorted newest-first. -/
def fetch_feed_data (max_items : Nat) (source : String) (feed : Feed) :
    List Article :=
  if feed.status = some 304 then []
  else sortDesc ((feed.entries.take max_items).map (mkArticle source))

/-- The per-source dedup loop of `poll_all_feeds`: skip articles whose key is
already in `seen_keys`, otherwise add the key and emit the article.
Returns `(new_items, seen_keys)`. -/
def dedupNew (seen : List String) : List Article → List Article × List String
  | [] => ([], seen)
  | a :: rest =>
      if a.key ∈ seen then dedupNew seen rest
      else
        let r := dedupNew (a.key :: seen) rest
        (a :: r.1, r.2)

/-- `poll_all_feeds`: fetch every configured feed in order, dedup against and
update `seen_keys`, and record `(source, new_items)` for every source.
State (`seen_keys`) is passed explicitly; `_save_state` only persists it. -/
def poll_all_feeds (m : Nat) (seen : List String) :
    List (String × Feed) → List (String × List Article) × List String
  | [] => ([], seen)
  | (s, f) :: rest =>
      let r := dedupNew seen (fetch_feed_data m s f)
      let r2 := poll_all_feeds m r.2 rest
      ((s, r.1) :: r2.1, r2.2)

/-- A whole poller lifetime: one `poll_all_feeds` cycle per element of
`feedss` (feed content may change between cycles), threading `seen_keys`. -/
def pollMany (m : Nat) (seen : List String) :
    List (List (String × Feed)) → List (List (String × List Article)) × List String
  | [] => ([], seen)
  | feeds :: rest =>
      let r := poll_all_feeds m seen feeds
      let r2 := pollMany m r.2 rest
      (r.1 :: r2.1, r2.2)

/-- The fingerprints emitted by one poll cycle, in emission order. -/
def newKeys (out : List (String × List Article)) : List String :=
  (out.map (fun p => p.2.map (fun a => a.key))).flatten

/-- The fingerprints emitted over a whole poller lifetime. -/
def lifetimeKeys (outs : List (List (String × List Article))) : List String :=
  (outs.map newKeys).flatten

/-- A JSON value (what `json.load` / `json.loads` can produce). -/
inductive Json where
  | null
  | bool (b : Bool)
  | num (n : Int)
  | str (s : String)
  | arr (elems : List Json)
  | obj (fields : List (String × Json))

/-- Python truthiness of a JSON value. -/
def truthy : Json → Bool
  | .null => false
  | .bool b => b
  | .num n => n != 0
  | .str s => s != ""
  | .arr xs => !xs.isEmpty
  | .obj kvs => !kvs.isEmpty

/-- Key lookup in a JSON object's field list. -/
def jLookup (kvs : List (String × Json)) (k : String) : Option Json :=
  List.lookup k kvs

/-- `x.get(k, dflt)`: succeeds only when `x` is a dict (`AttributeError`
otherwise). -/
def pyDictGetD : Json → String → Json → Except Unit Json
  | .obj kvs, k, dflt => .ok ((jLookup kvs k).getD dflt)
  | _, _, _ => .error ()

/-- `x.get(k)` returning `None` when absent; `AttributeError` when `x` is
not a dict. -/
def pyGetOpt : Json → String → Except Unit (Option Json)
  | .obj kvs, k => .ok (jLookup kvs k)
  | _, _ => .error ()

/-- A hashable Python value, i.e. a legal element of a `set` built from
JSON data (lists and dicts are unhashable). -/
inductive PyHashable where
  | null
  | bool (b : Bool)
  | num (n : Int)
  | str (s : String)
deriving DecidableEq

/-- Check hashability of one JSON value (`TypeError` for list/dict). -/
def toHashable : Json → Except Unit PyHashable
  | .null => .ok .null
  | .bool b => .ok (.bool b)
  | .num n => .ok (.num n)
  | .str s => .ok (.str s)
  | .arr _ => .error ()
  | .obj _ => .error ()

/-- Remove duplicates, as a `set` does (only membership matters below). -/
def dedup : List PyHashable → List PyHashable
  | [] => []
  | a :: rest => a :: (dedup rest).filter (fun b => b ≠ a)

/-- Python `set(x)` on a JSON value: iterable of hashables required.
Lists iterate elements, strings iterate characters, dicts iterate keys;
everything else raises `TypeError`. -/
def pySet : Json → Except Unit (List PyHashable)
  | .arr xs => (xs.mapM toHashable).map dedup
  | .str s => .ok (dedup (s.data.map (fun c => .str c.toString)))
  | .obj kvs => .ok (dedup (kvs.map (fun p => .str p.1)))
  | _ => .error ()

/-- The dict comprehension rebuilding `feed_state` in `_load_state`:
`{k: {"etag": v.get("etag"), "modified": None} for k, v in fs.items()}`.
Raises when `fs` is not a dict or some `v` is not a dict. -/
def buildFeedState : Json → Except Unit (List (String × Json))
  | .obj kvs =>
      kvs.mapM (fun p =>
        match p.2 with
        | .obj vkvs => .ok (p.1, (jLookup vkvs "etag").getD .null)
        | _ => .error ())
  | _ => .error ()

/-- The poller state mutated by `_load_state`: the `seen_keys` set and the
per-source etag validators of `feed_state`. -/
structure LoadedState where
  seen_keys : List PyHashable
  feed_state : List (String × Json)

/-- The state a fresh `RSSNewsPoller.__init__` starts from. -/
def emptyState : LoadedState := ⟨[], []⟩

/-- `_load_state` run from the freshly-initialized empty state.
`content` is the outcome of `open` + `json.load` (`none` = read or JSON
parse failure). Assignments happen in source order inside the `try` block;
the returned flag is `false` exactly when the `except` branch ran (the
failure is logged; nothing propagates to the caller). -/
def load_state (content : Option Json) : LoadedState × Bool :=
  match content with
  | none => (emptyState, false)
  | some data =>
      match pyDictGetD data "seen_keys" (.arr []) with
      | .error _ => (emptyState, false)
      | .ok sk =>
          match pySet sk with
          | .error _ => (emptyState, false)
          | .ok seen =>
              match pyDictGetD data "feed_state" (.obj []) with
              | .error _ => ({ seen_keys := seen, feed_state := [] }, false)
              | .ok fs =>
                  match buildFeedState fs with
                  | .error _ => ({ seen_keys := seen, feed_state := [] }, false)
                  | .ok fst => ({ seen_keys := seen, feed_state := fst }, true)

/-- The prefix of `_load_state` up to and including the construction of the
value assigned to `self.seen_keys` (read, JSON parse, `data.get`, `set`). -/
def seenStep (content : Option Json) : Except Unit (List PyHashable) :=
  match content with
  | none => .error ()
  | some data =>
      match pyDictGetD data "seen_keys" (.arr []) with
      | .error _ => .error ()
      | .ok sk => pySet sk

/-- Whether a JSON value is hashable as a Python dict key: lists and dicts
raise `TypeError: unhashable type` when hashed; everything else is fine. -/
def jsonHashable : Json → Bool
  | .arr _ => false
  | .obj _ => false
  | _ => true

/-- Outcome of `_Handler.do_POST` on one request: the HTTP status sent
(`none` when an exception escaped the handler and no response was sent at
all) and the `(event, data)` pair dispatched by `bus.emit` (if any). -/
structure PostResult where
  response : Option Nat
  emitted : Option (Json × Json)

/-- `_Handler.do_POST`, with the request body given as the outcome of
`json.loads` (`none` = the body was unparseable JSON, which raises inside
the `try`). Wrong path → 404 without dispatch; any exception in the parse
block → 400 with an error text and no dispatch. The `self.bus.emit(event,
data)` call sits OUTSIDE the `try`: for a truthy but unhashable event
value (non-empty list/dict) `self._subs.get(event, [])` raises
`TypeError` before any handler runs, the exception escapes `do_POST`, and
no response is sent; for a hashable event, `emit` returns (handler
exceptions are contained inside it) and 200 is sent. -/
def do_POST (path_allowed path : String) (body : Option Json) : PostResult :=
  if path ≠ path_allowed then ⟨some 404, none⟩
  else
    match body with
    | none => ⟨some 400, none⟩
    | some payload =>
        match pyGetOpt payload "event" with
        | .error _ => ⟨some 400, none⟩
        | .ok eventOpt =>
            match pyGetOpt payload "data" with
            | .error _ => ⟨some 400, none⟩
            | .ok dataOpt =>
                let event := eventOpt.getD .null
                let data :=
                  if truthy (dataOpt.getD .null) then dataOpt.getD .null
                  else .obj []
                if truthy event then
                  if jsonHashable event then ⟨some 200, some (event, data)⟩
                  else ⟨none, none⟩
                else ⟨some 400, none⟩

/-- The `data` value dispatched for a well-formed object payload:
`payload.get("data") or {}`. -/
def dispatchedData (kvs : List (String × Json)) : Json :=
  let d := (jLookup kvs "data").getD .null
  if truthy d then d else .obj []

/-- `EventBus.on`: `self._subs.setdefault(event, []).append(handler)` —
append to the event's list, creating it at the end of the registry if new.
Handlers are abstract values of type `α`. -/
def busOn {α : Type} : List (String × List α) → String → α → List (String × List α)
  | [], e, h => [(e, [h])]
  | (k, hs) :: rest, e, h =>
      if k = e then (k, hs ++ [h]) :: rest
      else (k, hs) :: busOn rest e h

/-- The body of `EventBus.emit`'s loop over one handler list: each call
`h(data)` is wrapped in try/except; a raising handler only contributes a
log line (`beh` gives each handler's behaviour on a payload). Returns the
invocations attempted (handler, payload) in order, plus the log lines. -/
def emitLoop {α : Type} (beh : α → Json → Except String Unit) (event : String)
    (data : Json) : List α → List (α × Json) × List String
  | [] => ([], [])
  | h :: rest =>
      let logs := match beh h data with
        | .ok _ => []
        | .error e => ["[handler error] " ++ event ++ ": " ++ e]
      let r := emitLoop beh event data rest
      ((h, data) :: r.1, logs ++ r.2)

/-- `EventBus.emit`: run every handler registered under `event`
(`self._subs.get(event, [])`), isolating exceptions. Total: it always
returns to its caller. -/
def busEmit {α : Type} (subs : List (String × List α))
    (beh : α → Json → Except String Unit) (event : String) (data : Json) :
    List (α × Json) × List String :=
  emitLoop beh event data ((List.lookup event subs).getD [])

/-- The callbacks a finished `do_POST` causes to run on a bus whose
registry keys are strings (as `EventBus.on` creates them): a dispatched
non-string event name matches no string key of `_subs`, so
`_subs.get(event, [])` is empty. -/
def callbacksRun {α : Type} (subs : List (String × List α))
    (beh : α → Json → Except String Unit) (r : PostResult) : List (α × Json) :=
  match r.emitted with
  | none => []
  | some (Json.str s, d) => (busEmit subs beh s d).1
  | some (_, _) => []

/-! ### Order properties of the embedded Python string comparison -/

theorem charsLe_total : ∀ a b : List Char, charsLe a b = true ∨ charsLe b a = true
  | [], _ => Or.inl rfl
  | _ :: _, [] => Or.inr rfl
  | a :: as, b :: bs => by
      by_cases h1 : a.toNat < b.toNat
      · left; simp [charsLe, h1]
      · by_cases h2 : b.toNat < a.toNat
        · right; simp [charsLe, h2]
        · rcases charsLe_total as bs with h | h
          · left; simp [charsLe, h1, h2, h]
          · right; simp [charsLe, h1, h2, h]

theorem charsLe_trans : ∀ a b c : List Char,
    charsLe a b = true → charsLe b c = true → charsLe a c = true
  | [], _, _ => by intro _ _; rfl
  | _ :: _, [], _ => by intro hab _; simp [charsLe] at hab
  | _ :: _, _ :: _, [] => by intro _ hbc; simp [charsLe] at hbc
  | a :: as, b :: bs, c :: cs => by
      intro hab hbc
      simp only [charsLe] at hab hbc ⊢
      by_cases h1 : a.toNat < b.toNat
      · by_cases h2 : b.toNat < c.toNat
        · simp [show a.toNat < c.toNat by omega]
        · by_cases h3 : c.toNat < b.toNat
          · simp [h2, h3] at hbc
          · simp [show a.toNat < c.toNat by omega]
      · by_cases h2 : b.toNat < a.toNat
        · simp [h1, h2] at hab
        · by_cases h3 : b.toNat < c.toNat
          · simp [show a.toNat < c.toNat by omega]
          · by_cases h4 : c.toNat < b.toNat
            · simp [h3, h4] at hbc
            · have hac1 : ¬ a.toNat < c.toNat := by omega
              have hac2 : ¬ c.toNat < a.toNat := by omega
              simp only [h1, h2, if_false, if_neg hac1, if_neg hac2] at hab ⊢
              simp only [h3, h4, if_false] at hbc
              exact charsLe_trans as bs cs hab hbc

theorem charsLe_nil_right {l : List Char} (h : charsLe l [] = true) : l = [] := by
  cases l with
  | nil => rfl
  | cons a as => simp [charsLe] at h

theorem strLe_total (a b : String) : strLe a b = true ∨ strLe b a = true :=
  charsLe_total a.data b.data

theorem strLe_trans {a b c : String} (hab : strLe a b = true)
    (hbc : strLe b c = true) : strLe a c = true :=
  charsLe_trans a.data b.data c.data hab hbc

theorem strLe_empty_right {s : String} (h : strLe s "" = true) : s = "" := by
  cases s with
  | mk data =>
      have : data = [] := charsLe_nil_right h
      simp [this]

theorem isoformat_ne_empty (t : TimeStruct) : isoformat t ≠ "" := by
  intro h
  have h2 := congrArg String.length h
  simp only [isoformat, String.length_append] at h2
  rw [show ("-" : String).length = 1 from rfl,
      show ("T" : String).length = 1 from rfl,
      show (":" : String).length = 1 from rfl,
      show ("" : String).length = 0 from rfl] at h2
  omega

/-! ### The stable descending sort -/

theorem insertDesc_perm (a : Article) (l : List Article) :
    List.Perm (insertDesc a l) (a :: l) := by
  induction l with
  | nil => exact List.Perm.refl _
  | cons b rest ih =>
      unfold insertDesc
      split
      · exact List.Perm.refl _
      · exact (ih.cons b).trans (List.Perm.swap a b rest)

theorem sortDesc_perm (l : List Article) : List.Perm (sortDesc l) l := by
  induction l with
  | nil => exact List.Perm.refl _
  | cons a rest ih =>
      exact (insertDesc_perm a (sortDesc rest)).trans (ih.cons a)

theorem insertDesc_sorted (a : Article) (l : List Article)
    (h : l.Pairwise (fun x y => strLe (sortKey y) (sortKey x) = true)) :
    (insertDesc a l).Pairwise (fun x y => strLe (sortKey y) (sortKey x) = true) := by
  induction l with
  | nil => simp [insertDesc]
  | cons b rest ih =>
      rw [List.pairwise_cons] at h
      unfold insertDesc
      split
      · rename_i hba
        rw [List.pairwise_cons]
        refine ⟨?_, List.pairwise_cons.mpr h⟩
        intro x hx
        rcases List.mem_cons.mp hx with rfl | hx
        · exact hba
        · exact strLe_trans (h.1 x hx) hba
      · rename_i hba
        have hab : strLe (sortKey a) (sortKey b) = true := by
          rcases strLe_total (sortKey b) (sortKey a) with h' | h'
          · exact absurd h' hba
          · exact h'
        rw [List.pairwise_cons]
        refine ⟨?_, ih h.2⟩
        intro x hx
        have : x ∈ a :: rest := (insertDesc_perm a rest).mem_iff.mp hx
        rcases List.mem_cons.mp this with rfl | hx'
        · exact hab
        · exact h.1 x hx'

theorem sortDesc_sorted (l : List Article) :
    (sortDesc l).Pairwise (fun x y => strLe (sortKey y) (sortKey x) = true) := by
  induction l with
  | nil => simp [sortDesc]
  | cons a rest ih => exact insertDesc_sorted a (sortDesc rest) ih

/-! ### Invariants of the dedup loop and of the poll coordinator -/

theorem dedupNew_seen_mono (seen : List String) (l : List Article) :
    ∀ k ∈ seen, k ∈ (dedupNew seen l).2 := by
  induction l generalizing seen with
  | nil => intro k hk; exact hk
  | cons a rest ih =>
      intro k hk
      unfold dedupNew
      split
      · exact ih seen k hk
      · exact ih (a.key :: seen) k (List.mem_cons_of_mem _ hk)

theorem dedupNew_processed_mem (seen : List String) (l : List Article) :
    ∀ x ∈ l, x.key ∈ (dedupNew seen l).2 := by
  induction l generalizing seen with
  | nil => intro x hx; cases hx
  | cons a rest ih =>
      intro x hx
      unfold dedupNew
      split
      · rename_i hs
        rcases List.mem_cons.mp hx with rfl | hx'
        · exact dedupNew_seen_mono seen rest _ hs
        · exact ih seen x hx'
      · rcases List.mem_cons.mp hx with rfl | hx'
        · exact dedupNew_seen_mono (x.key :: seen) rest _ (List.mem_cons_self _ _)
        · exact ih (a.key :: seen) x hx'

theorem dedupNew_emitted_sub (seen : List String) (l : List Article) :
    ∀ x ∈ (dedupNew seen l).1, x ∈ l := by
  induction l generalizing seen with
  | nil => intro x hx; cases hx
  | cons a rest ih =>
      intro x hx
      unfold dedupNew at hx
      split at hx
      · exact List.mem_cons_of_mem _ (ih seen x hx)
      · rcases List.mem_cons.mp hx with rfl | hx'
        · exact List.mem_cons_self _ _
        · exact List.mem_cons_of_mem _ (ih (a.key :: seen) x hx')

theorem dedupNew_emitted_not_seen (seen : List String) (l : List Article) :
    ∀ x ∈ (dedupNew seen l).1, x.key ∉ seen := by
  induction l generalizing seen with
  | nil => intro x hx; cases hx
  | cons a rest ih =>
      intro x hx
      unfold dedupNew at hx
      split at hx
      · exact ih seen x hx
      · rename_i hs
        rcases List.mem_cons.mp hx with rfl | hx'
        · exact hs
        · intro hk
          exact ih (a.key :: seen) x hx' (List.mem_cons_of_mem _ hk)

theorem dedupNew_emitted_mem_snd (seen : List String) (l : List Article) :
    ∀ x ∈ (dedupNew seen l).1, x.key ∈ (dedupNew seen l).2 := by
  intro x hx
  exact dedupNew_processed_mem seen l x (dedupNew_emitted_sub seen l x hx)

theorem dedupNew_nodup (seen : List String) (l : List Article) :
    ((dedupNew seen l).1.map Article.key).Nodup := by
  induction l generalizing seen with
  | nil => simp [dedupNew]
  | cons a rest ih =>
      unfold dedupNew
      split
      · exact ih seen
      · rename_i hs
        simp only [List.map_cons, List.nodup_cons]
        refine ⟨?_, ih (a.key :: seen)⟩
        intro hk
        rcases List.mem_map.mp hk with ⟨x, hx, hxk⟩
        have := dedupNew_emitted_not_seen (a.key :: seen) rest x hx
        rw [hxk] at this
        exact this (List.mem_cons_self _ _)

theorem dedupNew_all_seen (seen : List String) (l : List Article)
    (h : ∀ x ∈ l, x.key ∈ seen) : dedupNew seen l = ([], seen) := by
  induction l with
  | nil => rfl
  | cons a rest ih =>
      unfold dedupNew
      rw [if_pos (h a (List.mem_cons_self _ _))]
      exact ih (fun x hx => h x (List.mem_cons_of_mem _ hx))

theorem newKeys_cons (s : String) (as : List Article)
    (rest : List (String × List Article)) :
    newKeys ((s, as) :: rest) = as.map Article.key ++ newKeys rest := by
  simp [newKeys]

theorem newKeys_all_nil (fs : List (String × Feed)) :
    newKeys (fs.map (fun sf => (sf.1, []))) = [] := by
  induction fs with
  | nil => rfl
  | cons sf rest ih => simp [newKeys] at ih ⊢

theorem poll_seen_mono (m : Nat) (seen : List String) (fs : List (String × Feed)) :
    ∀ k ∈ seen, k ∈ (poll_all_feeds m seen fs).2 := by
  induction fs generalizing seen with
  | nil => intro k hk; exact hk
  | cons sf rest ih =>
      obtain ⟨s, f⟩ := sf
      intro k hk
      simp only [poll_all_feeds]
      exact ih _ k (dedupNew_seen_mono seen _ k hk)

theorem poll_newKeys_mem_snd (m : Nat) (seen : List String)
    (fs : List (String × Feed)) :
    ∀ k ∈ newKeys (poll_all_feeds m seen fs).1, k ∈ (poll_all_feeds m seen fs).2 := by
  induction fs generalizing seen with
  | nil => intro k hk; simp [poll_all_feeds, newKeys] at hk
  | cons sf rest ih =>
      obtain ⟨s, f⟩ := sf
      intro k hk
      simp only [poll_all_feeds] at hk ⊢
      rw [newKeys_cons] at hk
      rcases List.mem_append.mp hk with hk | hk
      · rcases List.mem_map.mp hk with ⟨x, hx, rfl⟩
        exact poll_seen_mono m _ rest _ (dedupNew_emitted_mem_snd seen _ x hx)
      · exact ih _ k hk

theorem poll_newKeys_not_seen (m : Nat) (seen : List String)
    (fs : List (String × Feed)) :
    ∀ k ∈ newKeys (poll_all_feeds m seen fs).1, k ∉ seen := by
  induction fs generalizing seen with
  | nil => intro k hk; simp [poll_all_feeds, newKeys] at hk
  | cons sf rest ih =>
      obtain ⟨s, f⟩ := sf
      intro k hk
      simp only [poll_all_feeds] at hk
      rw [newKeys_cons] at hk
      rcases List.mem_append.mp hk with hk | hk
      · rcases List.mem_map.mp hk with ⟨x, hx, rfl⟩
        exact dedupNew_emitted_not_seen seen _ x hx
      · intro hks
        exact ih _ k hk (dedupNew_seen_mono seen _ k hks)

theorem poll_newKeys_nodup (m : Nat) (seen : List String)
    (fs : List (String × Feed)) :
    (newKeys (poll_all_feeds m seen fs).1).Nodup := by
  induction fs generalizing seen with
  | nil => simp [poll_all_feeds, newKeys]
  | cons sf rest ih =>
      obtain ⟨s, f⟩ := sf
      simp only [poll_all_feeds]
      rw [newKeys_cons, List.nodup_append]
      refine ⟨dedupNew_nodup seen _, ih _, ?_⟩
      intro k hk1 hk2
      rcases List.mem_map.mp hk1 with ⟨x, hx, rfl⟩
      exact poll_newKeys_not_seen m _ rest _ hk2
        (dedupNew_emitted_mem_snd seen _ x hx)

theorem poll_fetched_mem_snd (m : Nat) (seen : List String)
    (fs : List (String × Feed)) :
    ∀ sf ∈ fs, ∀ a ∈ fetch_feed_data m sf.1 sf.2,
      a.key ∈ (poll_all_feeds m seen fs).2 := by
  induction fs generalizing seen with
  | nil => intro sf hsf; cases hsf
  | cons sf0 rest ih =>
      obtain ⟨s, f⟩ := sf0
      intro sf hsf a ha
      simp only [poll_all_feeds]
      rcases List.mem_cons.mp hsf with rfl | hsf'
      · exact poll_seen_mono m _ rest _
          (dedupNew_processed_mem seen _ a ha)
      · exact ih _ sf hsf' a ha

theorem poll_all_seen_out (m : Nat) (seen : List String)
    (fs : List (String × Feed))
    (h : ∀ sf ∈ fs, ∀ a ∈ fetch_feed_data m sf.1 sf.2, a.key ∈ seen) :
    (poll_all_feeds m seen fs).1 = fs.map (fun sf => (sf.1, [])) := by
  induction fs with
  | nil => rfl
  | cons sf0 rest ih =>
      obtain ⟨s, f⟩ := sf0
      simp only [poll_all_feeds]
      have hd := dedupNew_all_seen seen (fetch_feed_data m s f)
        (h (s, f) (List.mem_cons_self _ _))
      rw [hd]
      simp only [List.map_cons]
      refine congrArg _ ?_
      exact ih (fun sf hsf => h sf (List.mem_cons_of_mem _ hsf))

theorem lifetimeKeys_cons (out : List (String × List Article))
    (rest : List (List (String × List Article))) :
    lifetimeKeys (out :: rest) = newKeys out ++ lifetimeKeys rest := by
  simp [lifetimeKeys]

theorem pollMany_seen_mono (m : Nat) (seen : List String)
    (fss : List (List (String × Feed))) :
    ∀ k ∈ seen, k ∈ (pollMany m seen fss).2 := by
  induction fss generalizing seen with
  | nil => intro k hk; exact hk
  | cons feeds rest ih =>
      intro k hk
      simp only [pollMany]
      exact ih _ k (poll_seen_mono m seen feeds k hk)

theorem pollMany_keys_not_seen (m : Nat) (seen : List String)
    (fss : List (List (String × Feed))) :
    ∀ k ∈ lifetimeKeys (pollMany m seen fss).1, k ∉ seen := by
  induction fss generalizing seen with
  | nil => intro k hk; simp [pollMany, lifetimeKeys] at hk
  | cons feeds rest ih =>
      intro k hk
      simp only [pollMany] at hk
      rw [lifetimeKeys_cons] at hk
      rcases List.mem_append.mp hk with hk | hk
      · exact poll_newKeys_not_seen m seen feeds k hk
      · intro hks
        exact ih _ k hk (poll_seen_mono m seen feeds k hks)

theorem pollMany_keys_nodup (m : Nat) (seen : List String)
    (fss : List (List (String × Feed))) :
    (lifetimeKeys (pollMany m seen fss).1).Nodup := by
  induction fss generalizing seen with
  | nil => simp [pollMany, lifetimeKeys]
  | cons feeds rest ih =>
      simp only [pollMany]
      rw [lifetimeKeys_cons, List.nodup_append]
      refine ⟨poll_newKeys_nodup m seen feeds, ih _, ?_⟩
      intro k hk1 hk2
      exact pollMany_keys_not_seen m _ rest k hk2
        (poll_newKeys_mem_snd m seen feeds k hk1)

/-! ### Properties of the event bus -/

theorem busOn_lookup {α : Type} (subs : List (String × List α)) (e : String)
    (h : α) :
    List.lookup e (busOn subs e h) = some (((List.lookup e subs).getD []) ++ [h]) := by
  induction subs with
  | nil => simp [busOn, List.lookup]
  | cons kv rest ih =>
      obtain ⟨k, hs⟩ := kv
      unfold busOn
      by_cases hk : k = e
      · subst hk
        simp [List.lookup]
      · rw [if_neg hk]
        have hne : (e == k) = false := by
          simp [beq_iff_eq]
          exact fun hh => hk hh.symm
        simp only [List.lookup, hne]
        exact ih

theorem emitLoop_fst {α : Type} (beh : α → Json → Except String Unit)
    (event : String) (data : Json) (l : List α) :
    (emitLoop beh event data l).1 = l.map (fun h => (h, data)) := by
  induction l with
  | nil => rfl
  | cons h rest ih => simp [emitLoop, ih]

theorem emitLoop_snd {α : Type} (beh : α → Json → Except String Unit)
    (event : String) (data : Json) (l : List α) :
    (emitLoop beh event data l).2 = l.filterMap (fun h =>
      match beh h data with
      | .ok _ => none
      | .error e => some ("[handler error] " ++ event ++ ": " ++ e)) := by
  induction l with
  | nil => rfl
  | cons h rest ih =>
      simp only [emitLoop, List.filterMap_cons]
      cases hb : beh h data with
      | ok u => simp [hb, ih]
      | error e => simp [hb, ih]

/-! ### Shape of fetched articles -/

theorem fetch_mem_mkArticle (m : Nat) (source : String) (feed : Feed) :
    ∀ x ∈ fetch_feed_data m source feed, ∃ e, x = mkArticle source e := by
  intro x hx
  unfold fetch_feed_data at hx
  split at hx
  · cases hx
  · have hm := (sortDesc_perm _).mem_iff.mp hx
    rcases List.mem_map.mp hm with ⟨e, _, rfl⟩
    exact ⟨e, rfl⟩

theorem mkArticle_iso (source : String) (e : Entry) :
    (mkArticle source e).published_iso = none ∨
    ∃ t, (mkArticle source e).published_iso = some (isoformat t) := by
  simp only [mkArticle, safe_published]
  cases e.published_parsed with
  | none => left; rfl
  | some t =>
      by_cases hv : validDatetime t = true
      · right; exact ⟨t, by simp [hv]⟩
      · left; simp [hv]

theorem fetch_some_iso_sortKey_ne (m : Nat) (source : String) (feed : Feed) :
    ∀ x ∈ fetch_feed_data m source feed,
      x.published_iso ≠ none → sortKey x ≠ "" := by
  intro x hx hne
  rcases fetch_mem_mkArticle m source feed x hx with ⟨e, rfl⟩
  rcases mkArticle_iso source e with h | ⟨t, ht⟩
  · exact absurd h hne
  · rw [sortKey, ht, Option.getD_some]
    exact isoformat_ne_empty t

/-! ### Claim theorems -/

/-- Claim C1: for fixed feed content and any initial poller state, polling
twice emits each fingerprint at most once across both cycles combined:
every emitted article's fingerprint is in `seen_keys` when the cycle
returns, a fingerprint already in `seen_keys` is never emitted, and the
second immediate poll maps every configured source (key present) to `[]`. -/
theorem poll_twice_no_duplicate_emission (m : Nat) (seen0 : List String)
    (feeds : List (String × Feed)) :
    (newKeys (poll_all_feeds m seen0 feeds).1 ++
      newKeys (poll_all_feeds m (poll_all_feeds m seen0 feeds).2 feeds).1).Nodup ∧
    (∀ k ∈ newKeys (poll_all_feeds m seen0 feeds).1,
      k ∈ (poll_all_feeds m seen0 feeds).2) ∧
    (∀ k ∈ newKeys (poll_all_feeds m seen0 feeds).1, k ∉ seen0) ∧
    (poll_all_feeds m (poll_all_feeds m seen0 feeds).2 feeds).1 =
      feeds.map (fun sf => (sf.1, [])) := by
  have h2 : (poll_all_feeds m (poll_all_feeds m seen0 feeds).2 feeds).1 =
      feeds.map (fun sf => (sf.1, [])) :=
    poll_all_seen_out m _ feeds
      (fun sf hsf a ha => poll_fetched_mem_snd m seen0 feeds sf hsf a ha)
  refine ⟨?_, poll_newKeys_mem_snd m seen0 feeds,
    poll_newKeys_not_seen m seen0 feeds, h2⟩
  rw [h2, newKeys_all_nil, List.append_nil]
  exact poll_newKeys_nodup m seen0 feeds

/-- Witness for C1 at a concrete two-entry feed. -/
theorem poll_twice_no_duplicate_emission_witness :
    (newKeys (poll_all_feeds 10 []
        [("A", ⟨some 200, false,
          [⟨some "E1", none, none, none, none, none, none, []⟩,
           ⟨none, some "L2", none, none, none, none, none, []⟩]⟩)]).1 ++
      newKeys (poll_all_feeds 10
        (poll_all_feeds 10 []
          [("A", ⟨some 200, false,
            [⟨some "E1", none, none, none, none, none, none, []⟩,
             ⟨none, some "L2", none, none, none, none, none, []⟩]⟩)]).2
        [("A", ⟨some 200, false,
          [⟨some "E1", none, none, none, none, none, none, []⟩,
           ⟨none, some "L2", none, none, none, none, none, []⟩]⟩)]).1).Nodup ∧
    (∀ k ∈ newKeys (poll_all_feeds 10 []
        [("A", ⟨some 200, false,
          [⟨some "E1", none, none, none, none, none, none, []⟩,
           ⟨none, some "L2", none, none, none, none, none, []⟩]⟩)]).1,
      k ∈ (poll_all_feeds 10 []
        [("A", ⟨some 200, false,
          [⟨some "E1", none, none, none, none, none, none, []⟩,
           ⟨none, some "L2", none, none, none, none, none, []⟩]⟩)]).2) ∧
    (∀ k ∈ newKeys (poll_all_feeds 10 []
        [("A", ⟨some 200, false,
          [⟨some "E1", none, none, none, none, none, none, []⟩,
           ⟨none, some "L2", none, none, none, none, none, []⟩]⟩)]).1,
      k ∉ ([] : List String)) ∧
    (poll_all_feeds 10
        (poll_all_feeds 10 []
          [("A", ⟨some 200, false,
            [⟨some "E1", none, none, none, none, none, none, []⟩,
             ⟨none, some "L2", none, none, none, none, none, []⟩]⟩)]).2
        [("A", ⟨some 200, false,
          [⟨some "E1", none, none, none, none, none, none, []⟩,
           ⟨none, some "L2", none, none, none, none, none, []⟩]⟩)]).1 =
      List.map (fun sf => (sf.1, []))
        [("A", (⟨some 200, false,
          [⟨some "E1", none, none, none, none, none, none, []⟩,
           ⟨none, some "L2", none, none, none, none, none, []⟩]⟩ : Feed))] :=
  poll_twice_no_duplicate_emission 10 [] _

/-- Claim C2: the fingerprint has priority id, then link, then
title-and-published: for a truthy `id` the key is a function of the id
alone, and with no truthy id but a truthy `link` it is a function of the
link alone. -/
theorem make_article_key_priority (x y : Entry) :
    (truthyStr x.id = true → x.id = y.id →
      make_article_key x = make_article_key y) ∧
    (truthyStr x.id = true → make_article_key x = "id::" ++ x.id.getD "") ∧
    (truthyStr x.id = false → truthyStr y.id = false →
      truthyStr x.link = true → x.link = y.link →
      make_article_key x = make_article_key y) ∧
    (truthyStr x.id = false → truthyStr x.link = true →
      make_article_key x = "link::" ++ x.link.getD "") := by
  refine ⟨?_, ?_, ?_, ?_⟩
  · intro hx hxy
    have hy : truthyStr y.id = true := hxy ▸ hx
    simp [make_article_key, hx, hy, hxy]
  · intro hx
    simp [make_article_key, hx]
  · intro hx hy hl hxy
    have hly : truthyStr y.link = true := hxy ▸ hl
    simp [make_article_key, hx, hy, hl, hly, hxy]
  · intro hx hl
    simp [make_article_key, hx, hl]

/-- Witness for C2: same id, different title/summary/link/published. -/
theorem make_article_key_priority_witness :
    make_article_key
        ⟨some "guid-1", some "http://a/1", some "Old title", some "s1",
          none, some "Mon, 01 Jan 2024", none, []⟩ =
      make_article_key
        ⟨some "guid-1", some "http://a/2", some "New title", some "s2",
          none, some "Tue, 02 Jan 2024", none, []⟩ ∧
    make_article_key
        ⟨some "guid-1", some "http://a/1", some "Old title", some "s1",
          none, some "Mon, 01 Jan 2024", none, []⟩ = "id::guid-1" :=
  ⟨(make_article_key_priority _ _).1 rfl rfl,
   (make_article_key_priority
      ⟨some "guid-1", some "http://a/1", some "Old title", some "s1",
        none, some "Mon, 01 Jan 2024", none, []⟩
      ⟨some "guid-1", some "http://a/1", some "Old title", some "s1",
        none, some "Mon, 01 Jan 2024", none, []⟩).2.1 rfl⟩

/-- Claim C3 counterexample: the persisted content
`{"seen_keys": ["k1"], "feed_state": 5}` makes `_load_state` fail (the
`except` branch runs, flag `false`), yet the poller is NOT left with an
empty state: `seen_keys` was already assigned `{"k1"}` before the
`feed_state` comprehension raised. -/
theorem load_state_failure_counterexample :
    (load_state (some (.obj [("seen_keys", .arr [.str "k1"]),
        ("feed_state", .num 5)]))).2 = false ∧
    (load_state (some (.obj [("seen_keys", .arr [.str "k1"]),
        ("feed_state", .num 5)]))).1 ≠ emptyState := by
  refine ⟨rfl, ?_⟩
  intro h
  have h2 : ([PyHashable.str "k1"] : List PyHashable) = [] :=
    congrArg LoadedState.seen_keys h
  exact absurd h2 (by decide)

/-- Claim C3 amended: on any read/parse failure `_load_state` logs and
returns (never raises, being a total function here); the per-source
validators are always left empty on failure, and the whole state is empty
whenever the failure happens at reading, JSON parsing, or building the
seen-keys set — but a later failure while rebuilding `feed_state` keeps
the already-assigned `seen_keys`. -/
theorem load_state_failure_amended (content : Option Json)
    (hfail : (load_state content).2 = false) :
    (load_state content).1.feed_state = [] ∧
    (seenStep content = .error () → (load_state content).1 = emptyState) := by
  cases content with
  | none => exact ⟨rfl, fun _ => rfl⟩
  | some data =>
      unfold load_state at hfail
      unfold load_state seenStep
      cases h1 : pyDictGetD data "seen_keys" (.arr []) with
      | error u => simp [h1, emptyState]
      | ok sk =>
          cases h2 : pySet sk with
          | error u => simp [h1, h2, emptyState]
          | ok seen =>
              cases h3 : pyDictGetD data "feed_state" (.obj []) with
              | error u => simp [h1, h2, h3]
              | ok fs =>
                  cases h4 : buildFeedState fs with
                  | error u => simp [h1, h2, h3, h4]
                  | ok fst => simp [h1, h2, h3, h4] at hfail

/-- Witness for the amended C3 at a non-dict JSON document. -/
theorem load_state_failure_amended_witness :
    (load_state (some (.num 3))).2 = false ∧
    ((load_state (some (.num 3))).1.feed_state = [] ∧
      (seenStep (some (.num 3)) = .error () →
        (load_state (some (.num 3))).1 = emptyState)) :=
  ⟨rfl, load_state_failure_amended (some (.num 3)) rfl⟩

/-- Claim C4: a POST to the configured path whose body is unparseable
JSON, not a JSON object, or an object with a missing/falsy `event` field,
gets a 400 response, dispatches nothing on the bus, and invokes no
registered callback. -/
theorem do_POST_bad_payload {α : Type} (p : String) (body : Option Json)
    (subs : List (String × List α)) (beh : α → Json → Except String Unit)
    (hbad : body = none ∨
      (∃ j, body = some j ∧ ∀ kvs, j ≠ Json.obj kvs) ∨
      (∃ kvs, body = some (Json.obj kvs) ∧
        truthy ((jLookup kvs "event").getD Json.null) = false)) :
    do_POST p p body = ⟨some 400, none⟩ ∧
    callbacksRun subs beh (do_POST p p body) = [] := by
  have h400 : do_POST p p body = ⟨some 400, none⟩ := by
    unfold do_POST
    rw [if_neg (by simp)]
    rcases hbad with rfl | ⟨j, rfl, hj⟩ | ⟨kvs, rfl, hev⟩
    · rfl
    · cases j with
      | obj kvs => exact absurd rfl (hj kvs)
      | null => rfl
      | bool b => rfl
      | num n => rfl
      | str s => rfl
      | arr xs => rfl
    · simp [pyGetOpt, hev]
  rw [h400]
  exact ⟨rfl, rfl⟩

/-- Witness for C4: POST `{}` (missing `event`). -/
theorem do_POST_bad_payload_witness :
    do_POST "/market-event" "/market-event" (some (.obj [])) = ⟨some 400, none⟩ ∧
    callbacksRun [("market_added", [1])]
      (fun (_ : Nat) (_ : Json) => Except.ok ())
      (do_POST "/market-event" "/market-event" (some (.obj []))) = [] :=
  do_POST_bad_payload "/market-event" (some (.obj [])) [("market_added", [1])]
    (fun _ _ => Except.ok ()) (Or.inr (Or.inr ⟨[], rfl, rfl⟩))

/-- Claim C5: `emit` invokes every callback registered under the event, in
registration order, passing `data` unchanged; a raising callback is only
logged and does not stop later callbacks; `emit` is total, so the server
responds after dispatch. The invocation trace equals the registered list
regardless of the handlers' behaviour `beh`, and registering `h1` then
`h2` appends both to the trace in that order. -/
theorem emit_invokes_all_in_order {α : Type} (subs : List (String × List α))
    (beh : α → Json → Except String Unit) (event : String) (data : Json)
    (h1 h2 : α) :
    ((busEmit subs beh event data).1 =
      ((List.lookup event subs).getD []).map (fun h => (h, data))) ∧
    ((busEmit subs beh event data).2 =
      ((List.lookup event subs).getD []).filterMap (fun h =>
        match beh h data with
        | .ok _ => none
        | .error e => some ("[handler error] " ++ event ++ ": " ++ e))) ∧
    ((busEmit (busOn (busOn subs event h1) event h2) beh event data).1 =
      ((List.lookup event subs).getD []).map (fun h => (h, data)) ++
        [(h1, data), (h2, data)]) := by
  refine ⟨emitLoop_fst beh event data _, emitLoop_snd beh event data _, ?_⟩
  unfold busEmit
  rw [busOn_lookup, busOn_lookup]
  simp [emitLoop_fst]

/-- Witness for C5: two handlers where the first raises; both appear in
the trace, in order, and only the first is logged. -/
theorem emit_invokes_all_in_order_witness :
    ((busEmit [("e", [1, 2])]
        (fun h _ => if h = 1 then Except.error "boom" else Except.ok ())
        "e" Json.null).1 =
      (([(("e" : String), [1, 2])].lookup "e").getD []).map
        (fun h => (h, Json.null))) ∧
    ((busEmit [("e", [1, 2])]
        (fun h _ => if h = 1 then Except.error "boom" else Except.ok ())
        "e" Json.null).2 =
      (([(("e" : String), [1, 2])].lookup "e").getD []).filterMap (fun h =>
        match (if h = 1 then Except.error "boom" else Except.ok ()) with
        | .ok _ => none
        | .error e => some ("[handler error] " ++ "e" ++ ": " ++ e))) ∧
    ((busEmit (busOn (busOn [("e", [1, 2])] "e" 3) "e" 4)
        (fun h _ => if h = 1 then Except.error "boom" else Except.ok ())
        "e" Json.null).1 =
      (([(("e" : String), [1, 2])].lookup "e").getD []).map
        (fun h => (h, Json.null)) ++ [(3, Json.null), (4, Json.null)]) :=
  emit_invokes_all_in_order [("e", [1, 2])]
    (fun h _ => if h = 1 then Except.error "boom" else Except.ok ())
    "e" Json.null 3 4

/-- Claim C6: when the parsed feed was not a 304 short-circuit (a 304
parse yields no entries) and the feed has at least `max_items` entries,
`fetch_feed_data` returns exactly `max_items` records, built from the
first `max_items` entries in original feed order (the cap is applied
before sorting). -/
theorem fetch_feed_data_cap (m : Nat) (source : String) (feed : Feed)
    (h304 : feed.status ≠ some 304) (hm : m ≤ feed.entries.length) :
    (fetch_feed_data m source feed).length = m ∧
    List.Perm (fetch_feed_data m source feed)
      ((feed.entries.take m).map (mkArticle source)) := by
  have hperm : List.Perm (fetch_feed_data m source feed)
      ((feed.entries.take m).map (mkArticle source)) := by
    unfold fetch_feed_data
    rw [if_neg h304]
    exact sortDesc_perm _
  refine ⟨?_, hperm⟩
  rw [hperm.length_eq, List.length_map, List.length_take]
  omega

/-- Witness for C6: three entries, cap 2. -/
theorem fetch_feed_data_cap_witness :
    (fetch_feed_data 2 "A" ⟨some 200, false,
        [⟨some "E1", none, none, none, none, none, none, []⟩,
         ⟨some "E2", none, none, none, none, none, none, []⟩,
         ⟨some "E3", none, none, none, none, none, none, []⟩]⟩).length = 2 ∧
    List.Perm
      (fetch_feed_data 2 "A" ⟨some 200, false,
        [⟨some "E1", none, none, none, none, none, none, []⟩,
         ⟨some "E2", none, none, none, none, none, none, []⟩,
         ⟨some "E3", none, none, none, none, none, none, []⟩]⟩)
      ((List.take 2
          [⟨some "E1", none, none, none, none, none, none, []⟩,
           ⟨some "E2", none, none, none, none, none, none, []⟩,
           ⟨some "E3", none, none, none, none, none, none, []⟩]).map
        (mkArticle "A")) :=
  fetch_feed_data_cap 2 "A" _ (by decide) (by decide)

/-- Claim C7: `fetch_feed_data` output is sorted newest-first by
`published_iso` (descending in Python string order on
`a.get("published_iso") or ""`); a record whose publish time failed to
parse has `published_iso = none`, compares as the empty string, and is
ordered after every record with a parseable time. -/
theorem fetch_feed_data_sorted_desc (m : Nat) (source : String) (feed : Feed) :
    ((fetch_feed_data m source feed).Pairwise
      (fun x y => strLe (sortKey y) (sortKey x) = true)) ∧
    ((fetch_feed_data m source feed).Pairwise
      (fun x y => x.published_iso = none → y.published_iso = none)) ∧
    (∀ e : Entry,
      (e.published_parsed = none ∨
        ∃ t, e.published_parsed = some t ∧ validDatetime t = false) →
      (mkArticle source e).published_iso = none) ∧
    (∀ x : Article, x.published_iso = none → sortKey x = "") := by
  have hsorted : (fetch_feed_data m source feed).Pairwise
      (fun x y => strLe (sortKey y) (sortKey x) = true) := by
    unfold fetch_feed_data
    split
    · exact List.Pairwise.nil
    · exact sortDesc_sorted _
  refine ⟨hsorted, ?_, ?_, ?_⟩
  · refine List.Pairwise.imp_of_mem ?_ hsorted
    intro a b ha hb hR hnone
    by_contra hbne
    have hka : sortKey a = "" := by rw [sortKey, hnone]; rfl
    have hkb : sortKey b ≠ "" :=
      fetch_some_iso_sortKey_ne m source feed b hb hbne
    rw [hka] at hR
    exact hkb (strLe_empty_right hR)
  · intro e he
    simp only [mkArticle, safe_published]
    rcases he with he | ⟨t, he, hv⟩
    · simp [he]
    · simp [he, hv]
  · intro x hx
    rw [sortKey, hx]
    rfl

/-- Witness for C7 at a concrete feed with one valid, one invalid and one
absent publish time. -/
theorem fetch_feed_data_sorted_desc_witness :
    ((fetch_feed_data 10 "A" ⟨some 200, false,
        [⟨none, some "L1", none, none, none, none, none, []⟩,
         ⟨some "E2", none, none, none, none, some "d2",
            some ⟨2024, 1, 2, 3, 4, 5⟩, []⟩,
         ⟨some "E3", none, none, none, none, some "d3",
            some ⟨2024, 0, 2, 3, 4, 5⟩, []⟩]⟩).Pairwise
      (fun x y => strLe (sortKey y) (sortKey x) = true)) ∧
    ((fetch_feed_data 10 "A" ⟨some 200, false,
        [⟨none, some "L1", none, none, none, none, none, []⟩,
         ⟨some "E2", none, none, none, none, some "d2",
            some ⟨2024, 1, 2, 3, 4, 5⟩, []⟩,
         ⟨some "E3", none, none, none, none, some "d3",
            some ⟨2024, 0, 2, 3, 4, 5⟩, []⟩]⟩).Pairwise
      (fun x y => x.published_iso = none → y.published_iso = none)) ∧
    (∀ e : Entry,
      (e.published_parsed = none ∨
        ∃ t, e.published_parsed = some t ∧ validDatetime t = false) →
      (mkArticle "A" e).published_iso = none) ∧
    (∀ x : Article, x.published_iso = none → sortKey x = "") :=
  fetch_feed_data_sorted_desc 10 "A" _

/-- Claim C8: for a well-formed envelope (its `event` is truthy and, being
a string per the envelope contract, hashable), `payload.get("data") or {}`
replaces every falsy `data` value (absent, `null`, `false`, `0`, `""`,
`[]`, `{}`) by `{}` before dispatch, while any truthy value — object or
not — is passed to dispatch unchanged; the response is 200. A truthy but
unhashable event instead raises in `emit` and is outside this claim (see
the C9 correction). -/
theorem do_POST_data_defaults (p : String) (kvs : List (String × Json))
    (hev : truthy ((jLookup kvs "event").getD Json.null) = true)
    (hhash : jsonHashable ((jLookup kvs "event").getD Json.null) = true) :
    (∀ d, jLookup kvs "data" = some d → truthy d = false →
      do_POST p p (some (.obj kvs)) =
        ⟨some 200, some ((jLookup kvs "event").getD Json.null, Json.obj [])⟩) ∧
    (jLookup kvs "data" = none →
      do_POST p p (some (.obj kvs)) =
        ⟨some 200, some ((jLookup kvs "event").getD Json.null, Json.obj [])⟩) ∧
    (∀ d, jLookup kvs "data" = some d → truthy d = true →
      do_POST p p (some (.obj kvs)) =
        ⟨some 200, some ((jLookup kvs "event").getD Json.null, d)⟩) := by
  refine ⟨?_, ?_, ?_⟩
  · intro d hd ht
    unfold do_POST
    rw [if_neg (by simp)]
    simp [pyGetOpt, hd, ht, hev, hhash]
  · intro hd
    unfold do_POST
    rw [if_neg (by simp)]
    have hnull : truthy Json.null = false := rfl
    simp [pyGetOpt, hd, hnull, hev, hhash]
  · intro d hd ht
    unfold do_POST
    rw [if_neg (by simp)]
    simp [pyGetOpt, hd, ht, hev, hhash]

/-- Witness for C8: `data: 0` is falsy and is replaced by `{}`. -/
theorem do_POST_data_defaults_witness :
    do_POST "/market-event" "/market-event"
      (some (.obj [("event", .str "market_added"), ("data", .num 0)])) =
      ⟨some 200, some (.str "market_added", .obj [])⟩ :=
  (do_POST_data_defaults "/market-event"
    [("event", .str "market_added"), ("data", .num 0)] rfl rfl).1
    (.num 0) rfl rfl

/-- Claim C9 counterexample: at the claim\'s own example of a non-empty
list event, body `{"event": [1]}`, the event is truthy and non-string,
but `self._subs.get(event, [])` raises `TypeError: unhashable type`
outside the `try`, the exception escapes `do_POST`, nothing is
dispatched, and no response at all — in particular not 200 — is sent. -/
theorem do_POST_unhashable_event_counterexample :
    do_POST "/market-event" "/market-event"
      (some (.obj [("event", .arr [.num 1])])) = ⟨none, none⟩ ∧
    truthy (.arr [.num 1]) = true :=
  ⟨rfl, rfl⟩

/-- Claim C9 amended: the handler checks only truthiness of `event`, not
that it is a string — but dispatch reaches the bus only for hashable
values. A JSON object body whose `event` is a truthy, hashable,
non-string value (e.g. a number or `true`) is dispatched with that value
as the event name and answered `200 OK`, not rejected with 400; a truthy
unhashable `event` (non-empty list or object) makes the registry lookup
raise outside the `try`, so nothing is dispatched and no response
(neither 200 nor 400) is sent. -/
theorem do_POST_nonstring_truthy_event (p : String)
    (kvs : List (String × Json)) (v : Json)
    (hev : jLookup kvs "event" = some v) (ht : truthy v = true)
    (_hns : ∀ s, v ≠ Json.str s) :
    (jsonHashable v = true →
      do_POST p p (some (.obj kvs)) =
        ⟨some 200, some (v, dispatchedData kvs)⟩) ∧
    (jsonHashable v = false →
      do_POST p p (some (.obj kvs)) = ⟨none, none⟩) := by
  constructor
  · intro hh
    unfold do_POST dispatchedData
    rw [if_neg (by simp)]
    simp [pyGetOpt, hev, ht, hh]
  · intro hh
    unfold do_POST
    rw [if_neg (by simp)]
    simp [pyGetOpt, hev, ht, hh]

/-- Witness for the amended C9: `event: 5` (hashable) dispatches `5` and
answers 200; `event: [1]` (unhashable) yields no dispatch, no response. -/
theorem do_POST_nonstring_truthy_event_witness :
    (do_POST "/market-event" "/market-event"
        (some (.obj [("event", .num 5)])) =
      ⟨some 200, some (.num 5, dispatchedData [("event", .num 5)])⟩) ∧
    (do_POST "/market-event" "/market-event"
        (some (.obj [("event", .arr [.num 1])])) = ⟨none, none⟩) :=
  ⟨(do_POST_nonstring_truthy_event "/market-event" [("event", .num 5)]
      (.num 5) rfl rfl (fun _ h => Json.noConfusion h)).1 rfl,
   (do_POST_nonstring_truthy_event "/market-event" [("event", .arr [.num 1])]
      (.arr [.num 1]) rfl rfl (fun _ h => Json.noConfusion h)).2 rfl⟩

/-- Claim C10: two entries with neither truthy id nor truthy link get the
same fingerprint whenever their stripped titles and stripped published
strings agree; an entry missing id, link, title and published maps to the
single fingerprint `"tp::|"`; and over a whole poller lifetime the poller
emits any fixed fingerprint — in particular `"tp::|"` — at most once. -/
theorem tp_fallback_key_collision (x y : Entry) (m : Nat)
    (seen0 : List String) (fss : List (List (String × Feed))) :
    (truthyStr x.id = false → truthyStr x.link = false →
      truthyStr y.id = false → truthyStr y.link = false →
      pyStrip (x.title.getD "") = pyStrip (y.title.getD "") →
      pyStrip (x.published.getD "") = pyStrip (y.published.getD "") →
      make_article_key x = make_article_key y) ∧
    (x.id = none → x.link = none → x.title = none → x.published = none →
      make_article_key x = "tp::|") ∧
    (lifetimeKeys (pollMany m seen0 fss).1).count "tp::|" ≤ 1 := by
  refine ⟨?_, ?_, ?_⟩
  · intro h1 h2 h3 h4 h5 h6
    simp [make_article_key, h1, h2, h3, h4, h5, h6]
  · intro h1 h2 h3 h4
    simp only [make_article_key, h1, h2, h3, h4]
    decide
  · exact List.nodup_iff_count_le_one.mp (pollMany_keys_nodup m seen0 fss) _

/-- Witness for C10: falsy-id/falsy-link entries with equal stripped
fields collide; the all-missing entry maps to `"tp::|"`. -/
theorem tp_fallback_key_collision_witness :
    make_article_key
        ⟨none, none, some " T ", some "s1", none, some "d", none, []⟩ =
      make_article_key
        ⟨some "", some "", some "T", some "s2", none, some " d ", none, []⟩ ∧
    make_article_key ⟨none, none, none, none, none, none, none, []⟩ =
      "tp::|" ∧
    (lifetimeKeys (pollMany 10 [] []).1).count "tp::|" ≤ 1 :=
  ⟨(tp_fallback_key_collision
      ⟨none, none, some " T ", some "s1", none, some "d", none, []⟩
      ⟨some "", some "", some "T", some "s2", none, some " d ", none, []⟩
      10 [] []).1 rfl rfl rfl rfl (by decide) (by decide),
   (tp_fallback_key_collision
      ⟨none, none, none, none, none, none, none, []⟩
      ⟨none, none, none, none, none, none, none, []⟩
      10 [] []).2.1 rfl rfl rfl rfl,
   (tp_fallback_key_collision
      ⟨none, none, none, none, none, none, none, []⟩
      ⟨none, none, none, none, none, none, none, []⟩
      10 [] []).2.2⟩
